import Mathlib

/-!
Verification development for the screenshot URL resolver of the
app-store-asset-cli repository (module `app_store_asset_cli/download_app_assets.py`).

The Python code is shallowly embedded as executable Lean definitions:

* Pure string manipulation (`str.strip`, `str.split`, `str.replace`,
  `str.lower`, `startswith`, `endswith`, the `in` substring test) is
  re-implemented over `List Char`; all relevant inputs are ASCII, so the
  ASCII semantics of these helpers coincide with Python's.
* The concrete regular expressions that the module applies to single URL or
  descriptor strings (`(\d+(?:\.\d+)?)([wx])`, `/(300x|600x|460x|314x|230x|157x)\d+bb`,
  `/\d+x\d+bb.*$`, `/\d+x\d+bb\.`, `\d{3,4}x\d{3,4}`) are implemented
  directly as character-list matchers with Python's leftmost/greedy
  semantics.
* External library calls whose output the module merely consumes are
  modelled as fields of the input (`RenderedPage`): the element lists that
  `BeautifulSoup.find_all` returns for `picture`, `img` and `source`
  elements, and the two `re.findall` scans over the whole raw HTML.
* Python floats are modelled as exact rationals (`ℚ`); the descriptor
  values exercised by the claims (integers up to a few thousand, times
  1000) are exactly representable as floats, so no rounding behaviour is
  lost for them.
* An HTML attribute that is absent and an attribute equal to `""` are
  indistinguishable through the accessor patterns the module uses
  (`get(x, '')`, `get(x) or get(y, '')`), so attributes are modelled as
  plain strings with `""` for "absent".
-/

/-! ### Character and string toolkit (ASCII semantics of the Python helpers) -/

/-- Python `str.startswith` on character lists. -/
def listStartsWith : List Char → List Char → Bool
  | _, [] => true
  | [], _ :: _ => false
  | c :: cs, p :: ps => c == p && listStartsWith cs ps

/-- Python substring test `pat in s` on character lists. -/
def listContains (l pat : List Char) : Bool :=
  match l with
  | [] => pat.isEmpty
  | _ :: rest => listStartsWith l pat || listContains rest pat

/-- Python `pat in s` for strings. -/
def strContains (s pat : String) : Bool := listContains s.data pat.data

/-- Python `s.startswith(pat)` for strings. -/
def strStartsWith (s pat : String) : Bool := listStartsWith s.data pat.data

/-- Python `s.endswith(pat)` for strings. -/
def strEndsWith (s pat : String) : Bool := listStartsWith s.data.reverse pat.data.reverse

/-- ASCII lowercase conversion of one character (Python `str.lower` on ASCII). -/
def lowerChar (c : Char) : Char :=
  if 'A' ≤ c ∧ c ≤ 'Z' then Char.ofNat (c.toNat + 32) else c

/-- Python `s.lower()` (ASCII). -/
def lowerStr (s : String) : String := ⟨s.data.map lowerChar⟩

/-- Whitespace recognised by Python `str.strip()` / `str.split()` (ASCII part). -/
def isPySpace (c : Char) : Bool :=
  c == ' ' || c == '\t' || c == '\n' || c == '\r' || c == '\x0B' || c == '\x0C'

/-- Python `s.strip()` on character lists. -/
def trimCharList (l : List Char) : List Char :=
  ((l.dropWhile isPySpace).reverse.dropWhile isPySpace).reverse

/-- Python `s.strip()` for strings. -/
def trimStr (s : String) : String := ⟨trimCharList s.data⟩

/-- Python `s.split(sep)` for a one-character separator (keeps empty pieces). -/
def splitOnCharList (sep : Char) : List Char → List (List Char)
  | [] => [[]]
  | c :: rest =>
    if c == sep then [] :: splitOnCharList sep rest
    else
      match splitOnCharList sep rest with
      | h :: t => (c :: h) :: t
      | [] => [[c]]

/-- Split on a predicate, keeping empty pieces (helper for whitespace split). -/
def splitPieces (p : Char → Bool) : List Char → List (List Char)
  | [] => [[]]
  | c :: rest =>
    if p c then [] :: splitPieces p rest
    else
      match splitPieces p rest with
      | h :: t => (c :: h) :: t
      | [] => [[c]]

/-- Python `s.split()` (split on whitespace runs, dropping empty pieces). -/
def splitWs (l : List Char) : List (List Char) :=
  (splitPieces isPySpace l).filter (fun p => ¬ p.isEmpty)

/-- Python `s.replace(pat, repl)`: replace all non-overlapping occurrences,
left to right.  Structural recursion on a fuel argument (instantiated with
the input length, which always suffices because every step consumes at
least one character when the pattern is non-empty; an empty pattern is
treated as a no-op, and no caller passes one). -/
def replaceAllFuel (pat repl : List Char) : ℕ → List Char → List Char
  | _, [] => []
  | 0, l => l
  | fuel + 1, c :: rest =>
    if listStartsWith (c :: rest) pat && !pat.isEmpty then
      repl ++ replaceAllFuel pat repl fuel ((c :: rest).drop pat.length)
    else
      c :: replaceAllFuel pat repl fuel rest

/-- Python `s.replace(pat, repl)` on character lists. -/
def replaceAll (pat repl l : List Char) : List Char :=
  replaceAllFuel pat repl l.length l

/-- Python `s.replace(pat, repl)` for strings. -/
def strReplace (s pat repl : String) : String := ⟨replaceAll pat.data repl.data s.data⟩

/-! ### `_normalize_image_url` (download_app_assets.py lines 188-196) -/

/-- `AppAssetDownloader._normalize_image_url`: strip, force `https:` onto
protocol-relative URLs, replace `.webp` with `.jpg`. -/
def normalizeImageUrl (url : String) : String :=
  if url = "" then ""
  else
    let n := trimStr url
    let n := if strStartsWith n "//" then "https:" ++ n else n
    strReplace n ".webp" ".jpg"

/-! ### `_parse_srcset` (download_app_assets.py lines 198-219) -/

/-- A `(score, order, url)` candidate tuple as produced by `_parse_srcset`. -/
abbrev Cand := ℚ × ℕ × String

/-- Value of a digit character. -/
def digitVal (c : Char) : ℕ := c.toNat - '0'.toNat

/-- Numeric value of a digit run. -/
def digitsToNat (l : List Char) : ℕ :=
  l.foldl (fun acc c => acc * 10 + digitVal c) 0

/-- Python `re.match(r"(?P<value>\d+(?:\.\d+)?)(?P<unit>[wx])", s)`: an
anchored prefix match of an integer or decimal number followed by `w` or
`x` (trailing characters are ignored, as with `re.match`).  Returns the
numeric value (as an exact rational) and the unit character. -/
def parseDescriptor (s : String) : Option (ℚ × Char) :=
  let l := s.data
  let ds := l.takeWhile Char.isDigit
  let r1 := l.dropWhile Char.isDigit
  if ds = [] then none
  else
    match r1 with
    | 'w' :: _ => some (mkRat (digitsToNat ds) 1, 'w')
    | 'x' :: _ => some (mkRat (digitsToNat ds) 1, 'x')
    | '.' :: r2 =>
      let fs := r2.takeWhile Char.isDigit
      let r3 := r2.dropWhile Char.isDigit
      if fs = [] then none
      else
        match r3 with
        | 'w' :: _ =>
          some (mkRat (digitsToNat ds * 10 ^ fs.length + digitsToNat fs) (10 ^ fs.length), 'w')
        | 'x' :: _ =>
          some (mkRat (digitsToNat ds * 10 ^ fs.length + digitsToNat fs) (10 ^ fs.length), 'x')
        | _ => none
    | _ => none

/-- Multiplication of a rational by 1000, performed on the raw fraction so
that the kernel can evaluate it; it agrees with `q * 1000` (proved in
`ratTimes1000_eq` below). -/
def ratTimes1000 (q : ℚ) : ℚ := mkRat (q.num * 1000) q.den

/-- The score that `_parse_srcset` assigns to a descriptor string:
width descriptors score their value, density descriptors score value×1000,
anything unparseable scores 0. -/
def descriptorScore (s : String) : ℚ :=
  match parseDescriptor s with
  | some (v, u) => if u = 'w' then v else ratTimes1000 v
  | none => 0

/-- One iteration of the `_parse_srcset` loop body: strip the chunk, take
`parts[0]` as URL and `parts[1]` as descriptor, score it, normalize the URL
and keep the candidate only when the normalized URL starts with `http`. -/
def parseChunk (order : ℕ) (chunk : List Char) : Option Cand :=
  let entry := trimCharList chunk
  if entry = [] then none
  else
    let parts := splitWs entry
    let url : String := ⟨parts.head?.getD []⟩
    let descriptor : String := ⟨((parts.drop 1).head?).getD []⟩
    let score := descriptorScore descriptor
    let n := normalizeImageUrl url
    if strStartsWith n "http" then some (score, order, n) else none

/-- The `enumerate(srcset.split(","))` loop of `_parse_srcset`. -/
def parseSrcsetAux (order : ℕ) : List (List Char) → List Cand
  | [] => []
  | ch :: rest =>
    match parseChunk order ch with
    | some c => c :: parseSrcsetAux (order + 1) rest
    | none => parseSrcsetAux (order + 1) rest

/-- `AppAssetDownloader._parse_srcset`. -/
def parseSrcset (s : String) : List Cand :=
  if s = "" then [] else parseSrcsetAux 0 (splitOnCharList ',' s.data)

example : parseSrcset "https://a.mzstatic.com/i1 750w, https://b.mzstatic.com/i2 2x, https://c.mzstatic.com/i3"
    = [(750, 0, "https://a.mzstatic.com/i1"), (2000, 1, "https://b.mzstatic.com/i2"),
       (0, 2, "https://c.mzstatic.com/i3")] := by decide

example : normalizeImageUrl "//x.com/a.webp" = "https://x.com/a.jpg" := by decide

/-! ### Candidate selection (`candidates.sort(key=lambda x: x[0], reverse=True)`) -/

/-- Insert a candidate into a list already sorted by descending score.
Inserting before the first element of score ≤ the new score models the
stability of Python's sort with `reverse=True`: among equal scores,
elements keep their original (document) order. -/
def insCand (c : Cand) : List Cand → List Cand
  | [] => [c]
  | d :: ds => if d.1 ≤ c.1 then c :: d :: ds else d :: insCand c ds

/-- Stable sort by descending score, as `candidates.sort(key=lambda x: x[0],
reverse=True)` produces. -/
def sortCandDesc : List Cand → List Cand
  | [] => []
  | c :: rest => insCand c (sortCandDesc rest)

/-- `candidates[0]` after the descending sort: the selected top candidate. -/
def topCand (l : List Cand) : Option Cand := (sortCandDesc l).head?

/-! ### Per-URL regular expressions of the scrape stages -/

/-- Drop a leading digit run (`\d*`). -/
def dropDigits : List Char → List Char
  | [] => []
  | c :: rest => if c.isDigit then dropDigits rest else c :: rest

/-- Does the list start with `\d+bb`? -/
def digitsBB (l : List Char) : Bool :=
  match l with
  | [] => false
  | c :: _ => c.isDigit && listStartsWith (dropDigits l) ['b', 'b']

/-- The small/medium size tokens of the strict structured-markup stage. -/
def smallTokens : List String := ["300x", "600x", "460x", "314x", "230x", "157x"]

/-- Does the list start with `(300x|600x|460x|314x|230x|157x)\d+bb`? -/
def smallSizeAt (l : List Char) : Bool :=
  smallTokens.any fun t => listStartsWith l t.data && digitsBB (l.drop t.data.length)

/-- Python `re.search(r'/(300x|600x|460x|314x|230x|157x)\d+bb', url)` as a
Boolean: does the pattern occur anywhere? -/
def smallSizeSearch : List Char → Bool
  | [] => false
  | c :: rest => (c == '/' && smallSizeAt rest) || smallSizeSearch rest

/-- Does the list start with `\d+x\d+bb`? -/
def sizeBBAt (l : List Char) : Bool :=
  match l with
  | [] => false
  | c :: _ =>
    c.isDigit &&
      (match dropDigits l with
       | 'x' :: r2 =>
         (match r2 with
          | c2 :: _ => c2.isDigit && listStartsWith (dropDigits r2) ['b', 'b']
          | [] => false)
       | _ => false)

/-- Python `re.sub(r'/\d+x\d+bb.*$', '', url)`: since `.*$` extends the
match to the end of the (newline-free) URL, this truncates at the first
occurrence of `/\d+x\d+bb`. -/
def baseUrlData : List Char → List Char
  | [] => []
  | c :: rest => if c == '/' && sizeBBAt rest then [] else c :: baseUrlData rest

/-- The size-stripped base path used for deduplication in the strict stage. -/
def baseUrl (u : String) : String := ⟨baseUrlData u.data⟩

/-- If the list starts with `\d+x\d+bb.`, return the remainder after the
match, else `none`. -/
def sizeBBDotRem (l : List Char) : Option (List Char) :=
  match l with
  | [] => none
  | c :: _ =>
    if c.isDigit then
      match dropDigits l with
      | 'x' :: r2 =>
        (match r2 with
         | c2 :: _ =>
           if c2.isDigit then
             match dropDigits r2 with
             | 'b' :: 'b' :: '.' :: r4 => some r4
             | _ => none
           else none
         | [] => none)
      | _ => none
    else none

/-- Python `re.sub(r'/\d+x\d+bb\.', '/1290x2796bb.', src)`: replace every
non-overlapping occurrence, scanning left to right.  Structural recursion
on a fuel argument instantiated with the input length, which always
suffices because every step consumes at least one character. -/
def rewriteSizeDotFuel : ℕ → List Char → List Char
  | _, [] => []
  | 0, l => l
  | fuel + 1, c :: rest =>
    if c == '/' then
      match sizeBBDotRem rest with
      | some r4 => "/1290x2796bb.".data ++ rewriteSizeDotFuel fuel r4
      | none => c :: rewriteSizeDotFuel fuel rest
    else c :: rewriteSizeDotFuel fuel rest

/-- `re.sub(r'/\d+x\d+bb\.', '/1290x2796bb.', src)` over a character list. -/
def rewriteSizeDot (l : List Char) : List Char := rewriteSizeDotFuel l.length l

/-- Do the first characters form `\d{3}` ? -/
def threeDigits : List Char → Bool
  | a :: b :: c :: _ => a.isDigit && b.isDigit && c.isDigit
  | _ => false

/-- Does the list start with `\d{3,4}x\d{3,4}`? -/
def sizePairAt (l : List Char) : Bool :=
  match l with
  | a :: b :: c :: rest =>
    a.isDigit && b.isDigit && c.isDigit &&
      (match rest with
       | 'x' :: r => threeDigits r
       | d :: 'x' :: r => d.isDigit && threeDigits r
       | _ => false)
  | _ => false

/-- Python `re.search(r'\d{3,4}x\d{3,4}', url)` as a Boolean. -/
def sizePairSearch (l : List Char) : Bool :=
  match l with
  | [] => false
  | _ :: rest => sizePairAt l || sizePairSearch rest

example : topCand [(750, 0, "a"), (1242, 1, "b")] = some (1242, 1, "b") := by decide
example : smallSizeSearch "https://x/300x12bb/q".data = true := by decide
example : baseUrl "https://x/300x12bb.jpg" = "https://x" := by decide
example : (⟨rewriteSizeDot "https://x/100x200bb.png/a".data⟩ : String)
    = "https://x/1290x2796bb.png/a" := by decide
example : sizePairSearch "q/1290x2796bb".data = true := by decide
example : sizePairSearch "q/12x27bb".data = false := by decide

/-! ### The rendered page model

`_scrape_screenshot_urls` consumes the rendered HTML only through
`BeautifulSoup.find_all` (for `picture`, `img` and `source` elements) and
two whole-document `re.findall` scans.  Those library calls are modelled as
fields of `RenderedPage`; everything the module itself computes from their
results is translated directly. -/

/-- A `<source>` element as accessed by the module: its `type`, `srcset`
and `data-srcset` attributes (`""` models an absent attribute). -/
structure SourceElem where
  typeAttr : String
  srcset : String
  dataSrcset : String
deriving DecidableEq, Repr

/-- An `<img>` element as accessed by the module: its `src`, `data-src` and
`data-lazy-src` attributes. -/
structure ImgElem where
  src : String
  dataSrc : String
  dataLazySrc : String
deriving DecidableEq, Repr

/-- A `<picture>` element: its `<source>` children in document order. -/
structure Picture where
  sources : List SourceElem
deriving DecidableEq, Repr

/-- The outcome of a successful `crawler.arun` call plus the parses of its
HTML that the module obtains from BeautifulSoup and `re.findall`. -/
structure RenderedPage where
  /-- `result.success` of the headless render. -/
  success : Bool
  /-- `result.html`, the raw rendered HTML. -/
  html : String
  /-- `soup.find_all('picture')`. -/
  pictures : List Picture
  /-- `soup.find_all('img')`. -/
  imgs : List ImgElem
  /-- `soup.find_all('source')` over the whole document. -/
  allSources : List SourceElem
  /-- `re.findall(r'https://[...]+mzstatic\.com/[...]+', result.html)`:
  the raw-HTML URL harvest used by the regex stage. -/
  mzstaticUrls : List String
  /-- `re.findall(r'https://[^\s"\'<>]+mzstatic\.com/[^\s"\'<>]+', result.html)`:
  the URL harvest used for the `debug_urls.txt` file. -/
  allCdnUrls : List String
deriving DecidableEq, Repr

/-- `source.get('srcset') or source.get('data-srcset', '')`. -/
def srcsetOrData (s : SourceElem) : String :=
  if s.srcset ≠ "" then s.srcset else s.dataSrcset

/-! ### Stage 3: strict structured-markup scan (lines 356-386) -/

/-- `[s for s in picture.find_all('source') if 'image/jpeg' in s.get('type', '')]`. -/
def jpgSources (p : Picture) : List SourceElem :=
  p.sources.filter fun s => strContains s.typeAttr "image/jpeg"

/-- The URL substrings excluded by the strict stage. -/
def excludeTokens3 : List String := ["AppIcon", "marketing", "1200x630"]

/-- The `for source in jpg_sources` loop of the strict stage, threading the
`image_urls` accumulator and the `seen_base_urls` set; a `break` once 10
URLs are collected is modelled by returning early. -/
def stage3Sources : List String → List String → List SourceElem → List String × List String
  | urls, seen, [] => (urls, seen)
  | urls, seen, s :: rest =>
    let ss := srcsetOrData s
    if ss = "" ∨ strContains ss "mzstatic.com" = false then stage3Sources urls seen rest
    else
      match topCand (parseSrcset ss) with
      | none => stage3Sources urls seen rest
      | some (_, _, url) =>
        if excludeTokens3.any (fun e => strContains url e) then stage3Sources urls seen rest
        else if smallSizeSearch url.data then
          let b := baseUrl url
          if b ∈ seen then stage3Sources urls seen rest
          else
            let urls' := urls ++ [url]
            if urls'.length ≥ 10 then (urls', b :: seen)
            else stage3Sources urls' (b :: seen) rest
        else stage3Sources urls seen rest

/-- The `for picture in all_pictures` loop of the strict stage, with its
`if len(image_urls) >= 10: break` guard after each picture. -/
def stage3Pictures : List String → List String → List Picture → List String × List String
  | urls, seen, [] => (urls, seen)
  | urls, seen, p :: rest =>
    let st := stage3Sources urls seen (jpgSources p)
    if st.1.length ≥ 10 then st else stage3Pictures st.1 st.2 rest

/-- Output of the strict structured-markup stage on a fresh accumulator. -/
def stage3 (page : RenderedPage) : List String :=
  (stage3Pictures [] [] page.pictures).1

/-! ### Stage 4: loose structured-markup scan (lines 388-402) -/

/-- The large device-resolution tokens of the loose, img-tag and (all but
`640x`) source-tag stages. -/
def largeTokens : List String :=
  ["1290x", "1242x", "1170x", "1179x", "1284x", "828x", "750x", "640x"]

/-- The `for _, _, url in self._parse_srcset(srcset)` loop of the loose
stage.  Note that the `break` on reaching 10 URLs only leaves this
innermost loop. -/
def stage4Cands : List String → List Cand → List String
  | urls, [] => urls
  | urls, (_, _, url) :: rest =>
    if url ∈ urls then stage4Cands urls rest
    else
      let urls' := urls ++ [url]
      if urls'.length ≥ 10 then urls' else stage4Cands urls' rest

/-- The `for source in picture.find_all('source')` loop of the loose stage.
Faithfully to the source, there is no `>= 10` guard at this level: after
the inner loop broke at 10, the next `<source>` of the same picture can
still append further URLs. -/
def stage4Sources : List String → List SourceElem → List String
  | urls, [] => urls
  | urls, s :: rest =>
    let ss := s.srcset
    let urls' :=
      if strContains ss "is.mzstatic.com" && largeTokens.any (fun t => strContains ss t) then
        stage4Cands urls (parseSrcset ss)
      else urls
    stage4Sources urls' rest

/-- The `for picture in all_pictures` loop of the loose stage, with its
`if len(image_urls) >= 10: break` guard after each picture. -/
def stage4Pictures : List String → List Picture → List String
  | urls, [] => urls
  | urls, p :: rest =>
    let urls' := stage4Sources urls p.sources
    if urls'.length ≥ 10 then urls' else stage4Pictures urls' rest

/-- Output of the loose structured-markup stage on a fresh accumulator. -/
def stage4 (page : RenderedPage) : List String :=
  stage4Pictures [] page.pictures

/-! ### Stage 5: img-tag scan (lines 404-421) -/

/-- `img.get('src', '') or img.get('data-src', '') or img.get('data-lazy-src', '')`. -/
def imgSrc (img : ImgElem) : String :=
  if img.src ≠ "" then img.src
  else if img.dataSrc ≠ "" then img.dataSrc
  else img.dataLazySrc

/-- The `for img in all_imgs` loop of the img-tag stage. -/
def stage5Imgs : List String → List ImgElem → List String
  | urls, [] => urls
  | urls, img :: rest =>
    let src := imgSrc img
    if src ≠ "" ∧ strContains src "is.mzstatic.com" = true
        ∧ largeTokens.any (fun t => strContains src t) = true then
      let src1 : String := ⟨rewriteSizeDot src.data⟩
      let src2 := strReplace src1 ".webp" ".jpg"
      if src2 ∈ urls then stage5Imgs urls rest
      else
        let urls' := urls ++ [src2]
        if urls'.length ≥ 10 then urls' else stage5Imgs urls' rest
    else stage5Imgs urls rest

/-- Output of the img-tag stage on a fresh accumulator. -/
def stage5 (page : RenderedPage) : List String :=
  stage5Imgs [] page.imgs

/-! ### Stage 6: generic source-tag scan (lines 423-439) -/

/-- The resolution tokens of the generic source-tag stage (no `640x`). -/
def tokens6 : List String := ["1290x", "1242x", "1170x", "1179x", "1284x", "828x", "750x"]

/-- The `for _, _, url in self._parse_srcset(srcset)` loop of the generic
source-tag stage. -/
def stage6Cands : List String → List Cand → List String
  | urls, [] => urls
  | urls, (_, _, url) :: rest =>
    if tokens6.any (fun t => strContains url t) then
      if url ∈ urls then stage6Cands urls rest
      else
        let urls' := urls ++ [url]
        if urls'.length ≥ 10 then urls' else stage6Cands urls' rest
    else stage6Cands urls rest

/-- The `for source in all_sources` loop of the generic source-tag stage,
with its `if len(image_urls) >= 10: break` guard after each source. -/
def stage6Sources : List String → List SourceElem → List String
  | urls, [] => urls
  | urls, s :: rest =>
    let ss := srcsetOrData s
    let urls' :=
      if strContains ss "is.mzstatic.com" || strContains ss "mzstatic.com" then
        stage6Cands urls (parseSrcset ss)
      else urls
    if urls'.length ≥ 10 then urls' else stage6Sources urls' rest

/-- Output of the generic source-tag stage on a fresh accumulator. -/
def stage6 (page : RenderedPage) : List String :=
  stage6Sources [] page.allSources

/-! ### Stage 7: regex over the raw HTML (lines 441-483) -/

/-- First-seen-order deduplication, as `list(dict.fromkeys(xs))` produces.
Structural recursion with an explicit `seen` accumulator mirroring the
dict's key set. -/
def dedupeAux (seen : List String) : List String → List String
  | [] => []
  | x :: rest =>
    if x ∈ seen then dedupeAux seen rest
    else x :: dedupeAux (seen ++ [x]) rest

/-- `list(dict.fromkeys(xs))`. -/
def dedupe (l : List String) : List String := dedupeAux [] l

/-- The URL substrings excluded by the strict regex filter. -/
def excludeTokens7 : List String := ["1200x630", "AppIcon-", "marketing"]

/-- The strict regex-stage filter over the harvested CDN URLs. -/
def stage7Strict (all : List String) : List String :=
  all.filter fun u =>
    excludeTokens7.any (fun e => strContains u e) = false
      && strContains u "/image/thumb/" && sizePairSearch u.data

/-- The loosened regex-stage filter, used only when the strict one found
nothing. -/
def stage7Loose (all : List String) : List String :=
  all.filter fun u =>
    strContains u "AppIcon" = false && strContains u "1200x630" = false
      && (strContains u "/image/thumb/" || strContains u "/Purple" || strContains u "/Features")
      && sizePairSearch u.data

/-- `screenshot_candidates` after the optional loosening. -/
def stage7Candidates (all : List String) : List String :=
  let strict := stage7Strict all
  if strict = [] then stage7Loose all else strict

/-- Python code `url.split('&')[0]`: the prefix before the first occurrence
of a character. -/
def cutAt (ch : Char) (l : List Char) : List Char := l.takeWhile (fun c => c ≠ ch)

/-- The chained `split(...)[0]` truncations applied to each unique regex
candidate: cut at `&`, `"`, `'`, `)` and `,` in turn. -/
def trimCandUrl (u : String) : String :=
  ⟨cutAt ',' (cutAt ')' (cutAt (Char.ofNat 39) (cutAt (Char.ofNat 34) (cutAt '&' u.data))))⟩

/-- The extension canonicalization of the regex stage: `.webp`/`.png`
endings are replaced (everywhere, as `str.replace` does), anything not
ending in `.jpg`/`.jpeg` gets `.jpg` appended. -/
def fixExt (u : String) : String :=
  if strEndsWith u ".webp" then strReplace u ".webp" ".jpg"
  else if strEndsWith u ".png" then strReplace u ".png" ".jpg"
  else if strEndsWith u ".jpg" || strEndsWith u ".jpeg" then u
  else u ++ ".jpg"

/-- The `for url in unique_candidates` loop of the regex stage. -/
def stage7Take : List String → List String → List String
  | urls, [] => urls
  | urls, u :: rest =>
    let u' := fixExt (trimCandUrl u)
    if u' ∈ urls then stage7Take urls rest
    else
      let urls' := urls ++ [u']
      if urls'.length ≥ 10 then urls' else stage7Take urls' rest

/-- Output of the regex stage on a fresh accumulator. -/
def stage7 (page : RenderedPage) : List String :=
  stage7Take [] (dedupe (stage7Candidates page.mzstaticUrls))

/-! ### Debug files and the whole scrape (lines 317-501) -/

/-- String comparison on code points (Python `<` on `str`). -/
def listCharLt : List Char → List Char → Bool
  | [], [] => false
  | [], _ :: _ => true
  | _ :: _, [] => false
  | a :: as, b :: bs => if a < b then true else if b < a then false else listCharLt as bs

/-- Insert into an ascending list (helper for `sorted`). -/
def insStr (u : String) : List String → List String
  | [] => [u]
  | v :: rest => if listCharLt u.data v.data then u :: v :: rest else v :: insStr u rest

/-- Python `sorted` on strings (ascending code-point order). -/
def sortStrings : List String → List String
  | [] => []
  | u :: rest => insStr u (sortStrings rest)

/-- The content written to `debug_urls.txt`: every URL of `sorted(set(all_urls))`
followed by a newline. -/
def joinLines : List String → String
  | [] => ""
  | u :: rest => u ++ "\n" ++ joinLines rest

/-- The two debug files written when every stage failed: file name paired
with file content. -/
def debugFiles (page : RenderedPage) : List (String × String) :=
  [("debug_html_full.txt", page.html),
   ("debug_urls.txt", joinLines (sortStrings (dedupe page.allCdnUrls)))]

/-- `AppAssetDownloader._scrape_screenshot_urls` after a successful
`crawler.arun` call: the URL list it returns, paired with the list of debug
files it writes.  The accumulator is threaded through the stages exactly as
`image_urls` is in the source: each later stage runs only on an empty
accumulator. -/
def scrapeResult (page : RenderedPage) : List String × List (String × String) :=
  if page.success = false then ([], [])
  else
    let u1 := (stage3Pictures [] [] page.pictures).1
    let u2 := if u1.isEmpty then stage4Pictures u1 page.pictures else u1
    let u3 := if u2.isEmpty then stage5Imgs u2 page.imgs else u2
    let u4 := if u3.isEmpty then stage6Sources u3 page.allSources else u3
    let u5 := if u4.isEmpty then stage7Take u4 (dedupe (stage7Candidates page.mzstaticUrls)) else u4
    if u5.isEmpty then ([], debugFiles page) else (u5, [])

/-- The URL list returned by the scrape. -/
def scrapeUrls (page : RenderedPage) : List String := (scrapeResult page).1

/-! ### Exception semantics of the scrape (lines 317 and 499-501)

The whole body of `_scrape_screenshot_urls` — render call included — sits
inside a single `try`; the matching `except` returns `[]`.  Exceptions can
only arise from the external calls (network, browser, parser), so they are
modelled as injected faults: `RenderOutcome.crash` stands for an exception
raised by `crawler.arun`, and a `Faults` record says which extraction
stage's library calls raise when that stage executes. -/

/-- Outcome of `crawler.arun`: an exception, or a rendered page (whose
`success` flag may still be false). -/
inductive RenderOutcome where
  | crash
  | page (p : RenderedPage)
deriving DecidableEq

/-- Fault injection: whether an exception is raised while stage 3, 4, 5, 6
or 7 executes. -/
structure Faults where
  s3 : Bool
  s4 : Bool
  s5 : Bool
  s6 : Bool
  s7 : Bool
deriving DecidableEq

/-- One cascade step under fault injection: if an exception is already
propagating, it keeps propagating (there is no handler between the stages);
otherwise the stage runs only when the accumulator is empty, and raises
instead of computing when its library calls fault. -/
def stageStep (fault : Bool) (compute : List String → List String)
    (acc : Except Unit (List String)) : Except Unit (List String) :=
  match acc with
  | .error e => .error e
  | .ok u => if u.isEmpty then (if fault then .error () else .ok (compute u)) else .ok u

/-- The `try` body of `_scrape_screenshot_urls` under fault injection:
`Except.error` means an exception is propagating. -/
def scrapeBodyExc (r : RenderOutcome) (f : Faults) :
    Except Unit (List String × List (String × String)) :=
  match r with
  | .crash => .error ()
  | .page page =>
    if page.success = false then .ok ([], [])
    else
      let e1 : Except Unit (List String) :=
        if f.s3 then .error () else .ok (stage3Pictures [] [] page.pictures).1
      let e2 := stageStep f.s4 (fun u => stage4Pictures u page.pictures) e1
      let e3 := stageStep f.s5 (fun u => stage5Imgs u page.imgs) e2
      let e4 := stageStep f.s6 (fun u => stage6Sources u page.allSources) e3
      let e5 := stageStep f.s7
        (fun u => stage7Take u (dedupe (stage7Candidates page.mzstaticUrls))) e4
      match e5 with
      | .error e => .error e
      | .ok u5 => if u5.isEmpty then .ok ([], debugFiles page) else .ok (u5, [])

/-- `_scrape_screenshot_urls` with its function-level `except Exception:
return []` handler (lines 499-501). -/
def scrapeExc (r : RenderOutcome) (f : Faults) : List String × List (String × String) :=
  match scrapeBodyExc r f with
  | .error _ => ([], [])
  | .ok res => res

/-- Modelled from the spec: the failure semantics the specification
describes — "any network or parse exception at a stage is caught ... and
treated as 'stage produced nothing', allowing the cascade to continue".  A
faulted stage contributes an empty list and the later stages still run.
This definition exists only to be compared against `scrapeExc`. -/
def specStageLocalCatch (r : RenderOutcome) (f : Faults) :
    List String × List (String × String) :=
  match r with
  | .crash => ([], [])
  | .page page =>
    if page.success = false then ([], [])
    else
      let u1 := if f.s3 then [] else (stage3Pictures [] [] page.pictures).1
      let u2 := if u1.isEmpty then
          (if f.s4 then [] else stage4Pictures u1 page.pictures)
        else u1
      let u3 := if u2.isEmpty then
          (if f.s5 then [] else stage5Imgs u2 page.imgs)
        else u2
      let u4 := if u3.isEmpty then
          (if f.s6 then [] else stage6Sources u3 page.allSources)
        else u3
      let u5 := if u4.isEmpty then
          (if f.s7 then [] else stage7Take u4 (dedupe (stage7Candidates page.mzstaticUrls)))
        else u4
      if u5.isEmpty then ([], debugFiles page) else (u5, [])

/-- First non-empty list of a sequence of stage outputs ([] if all are
empty): the cascade semantics the specification describes. -/
def firstNonEmpty : List (List String) → List String
  | [] => []
  | l :: rest => if l.isEmpty then firstNonEmpty rest else l

/-! ### `download_screenshots` (lines 503-563) -/

/-- The API-stage URL list (lines 518-526): normalize each of the first 10
`screenshotUrls` entries and keep the non-empty results.  A missing
`screenshotUrls` key, a `None` value and `metadata is None` are all
modelled by the empty input list. -/
def apiUrls (screenshotUrls : List String) : List String :=
  (screenshotUrls.take 10).filterMap fun u =>
    let n := normalizeImageUrl u
    if n = "" then none else some n

/-- `skip_api = bool(language and not language.lower().startswith("en"))`
(line 530). -/
def skipApi : Option String → Bool
  | none => false
  | some l => !(l == "") && !(strStartsWith (lowerStr l) "en")

/-- The URL-resolution part of `AppAssetDownloader.download_screenshots`
(lines 514-563): given the metadata's `screenshotUrls`, the requested
language and the list that `_scrape_screenshot_urls` would return if
invoked, produce the final `image_urls` the method downloads. -/
def downloadScreenshots (screenshotUrls : List String) (language : Option String)
    (scrapeOutcome : List String) : List String :=
  let api := apiUrls screenshotUrls
  let skip := skipApi language
  let needScrape := skip || api.isEmpty
  let scraped := if needScrape then scrapeOutcome else []
  if skip && !scraped.isEmpty then scraped
  else if skip && scraped.isEmpty && !api.isEmpty then api
  else dedupe (api ++ scraped)

/-! ### Language resolution (lines 35-89, 141-146, 592-608) -/

/-- `COUNTRY_LANGUAGE_MAP` of download_app_assets.py. -/
def COUNTRY_LANGUAGE_MAP : List (String × String) :=
  [("us", "en"), ("gb", "en-gb"), ("ie", "en-ie"), ("ca", "en-ca"), ("au", "en-au"),
   ("nz", "en-nz"), ("sg", "en-sg"), ("in", "en-in"), ("za", "en-za"), ("tr", "tr"),
   ("de", "de"), ("at", "de-at"), ("ch", "de-ch"), ("fr", "fr"), ("be", "fr-be"),
   ("it", "it"), ("es", "es"), ("mx", "es-mx"), ("ar", "es-ar"), ("cl", "es-cl"),
   ("co", "es-co"), ("pe", "es-pe"), ("br", "pt-br"), ("pt", "pt-pt"), ("nl", "nl"),
   ("se", "sv"), ("no", "no"), ("dk", "da"), ("fi", "fi"), ("pl", "pl"),
   ("cz", "cs"), ("hu", "hu"), ("gr", "el"), ("ro", "ro"), ("sk", "sk"),
   ("jp", "ja"), ("kr", "ko"), ("cn", "zh"), ("tw", "zh-hant"), ("hk", "zh-hk"),
   ("id", "id"), ("my", "ms"), ("th", "th"), ("vn", "vi"), ("ru", "ru"),
   ("ua", "uk"), ("ae", "ar"), ("sa", "ar"), ("qa", "ar"), ("kw", "ar"),
   ("il", "he")]

/-- `DEFAULT_LANGUAGE = settings.default_language or "en"` (line 35; the
setting itself comes from config.py's `_get_env("APP_STORE_DEFAULT_LANGUAGE",
"en") or "en"`, so the configured value is environment-dependent and is
passed in here as an `Option String`, with the `or "en"` fallbacks applied
faithfully). -/
def defaultLanguageOf : Option String → String
  | none => "en"
  | some v => if v = "" then "en" else v

/-- `COUNTRY_LANGUAGE_MAP.get(country_code, DEFAULT_LANGUAGE)` on the
lowercased country. -/
def countryDefaultLanguage (setting : Option String) (country : String) : String :=
  match COUNTRY_LANGUAGE_MAP.lookup (lowerStr country) with
  | some l => l
  | none => defaultLanguageOf setting

/-- `AppAssetDownloader._resolve_language` (lines 141-146).  The return
type is `Option String` because the Python signature is `Optional[str]`;
an empty-string override is falsy in Python and falls through to the map. -/
def resolveLanguage (setting : Option String) (country : String) (override : Option String) :
    Option String :=
  match override with
  | some o => if o ≠ "" then some o else some (countryDefaultLanguage setting country)
  | none => some (countryDefaultLanguage setting country)

/-- The screenshot-URL dataflow of `download_assets_for_country`
(lines 592-608): the resolved language — not the raw override — is what
`download_screenshots` receives. -/
def countryScreenshotList (setting : Option String) (country : String)
    (override : Option String) (screenshotUrls : List String)
    (scrapeOutcome : List String) : List String :=
  downloadScreenshots screenshotUrls (resolveLanguage setting country override) scrapeOutcome

example : skipApi (some "ja") = true := by decide
example : skipApi (some "en-GB") = false := by decide
example : skipApi none = false := by decide
example : resolveLanguage none "JP" none = some "ja" := by decide
example : downloadScreenshots ["//x.com/a.webp"] none ["s"] = ["https://x.com/a.jpg"] := by decide
example : downloadScreenshots ["//x.com/a.webp", "//x.com/a.webp"] (some "ja") []
    = ["https://x.com/a.jpg", "https://x.com/a.jpg"] := by decide

/-! ### Concrete fixtures -/

/-- A rendered page on which the strict stage finds nothing (no JPEG MIME
type) while the loose stage collects ten URLs from the first `<source>` of
a picture and is then driven past the cap by the picture's second
`<source>`. -/
def pageOverflow : RenderedPage :=
  { success := true
    html := ""
    pictures :=
      [{ sources :=
          [{ typeAttr := ""
             srcset := "https://is.mzstatic.com/a1 640x,https://a2,https://a3,https://a4,https://a5,https://a6,https://a7,https://a8,https://a9,https://a10"
             dataSrcset := "" },
           { typeAttr := ""
             srcset := "https://is.mzstatic.com/b1 640x"
             dataSrcset := "" }] }]
    imgs := []
    allSources := []
    mzstaticUrls := []
    allCdnUrls := [] }

/-- A rendered page on which the loose stage would find one URL; used to
separate the code's function-level exception handler from the per-stage
handler the specification describes. -/
def pageFault : RenderedPage :=
  { success := true
    html := ""
    pictures :=
      [{ sources := [{ typeAttr := ""
                       srcset := "https://is.mzstatic.com/c1 640x"
                       dataSrcset := "" }] }]
    imgs := []
    allSources := []
    mzstaticUrls := []
    allCdnUrls := [] }

/-- Faults hitting only stage 3. -/
def faultsS3 : Faults := ⟨true, false, false, false, false⟩

/-- A rendered page where every stage fails: only debug output remains. -/
def pageEmptyish : RenderedPage :=
  { success := true
    html := "<html>H</html>"
    pictures := []
    imgs := []
    allSources := []
    mzstaticUrls := []
    allCdnUrls := ["https://b.mzstatic.com/2", "https://a.mzstatic.com/1",
                   "https://b.mzstatic.com/2"] }

/-- A rendered page whose img-tag stage finds one screenshot. -/
def pageImgHit : RenderedPage :=
  { success := true
    html := ""
    pictures := []
    imgs := [{ src := "https://is.mzstatic.com/t/750x1334bb.webp"
               dataSrc := ""
               dataLazySrc := "" }]
    allSources := []
    mzstaticUrls := []
    allCdnUrls := [] }


/-! ### Helper lemmas -/

theorem ratTimes1000_eq (q : ℚ) : ratTimes1000 q = q * 1000 := by
  have hd : (q.den : ℚ) ≠ 0 := Nat.cast_ne_zero.mpr q.den_nz
  conv_rhs => rw [← Rat.num_div_den q]
  rw [ratTimes1000, Rat.mkRat_eq_div]
  push_cast
  field_simp

theorem mkRat_one_den (n : ℕ) : mkRat (n : ℤ) 1 = (n : ℚ) := by
  rw [Rat.mkRat_eq_div]
  norm_num

theorem mkRat_decimal (a b k : ℕ) :
    mkRat ((a : ℤ) * 10 ^ k + (b : ℤ)) (10 ^ k) = (a : ℚ) + (b : ℚ) / 10 ^ k := by
  have h10 : ((10 : ℚ) ^ k) ≠ 0 := by positivity
  rw [Rat.mkRat_eq_div]
  push_cast
  field_simp

theorem dedupeAux_mem (l : List String) : ∀ (seen : List String) (y : String),
    y ∈ dedupeAux seen l ↔ y ∈ l ∧ y ∉ seen := by
  induction l with
  | nil => intro seen y; simp [dedupeAux]
  | cons x rest ih =>
    intro seen y
    by_cases hx : x ∈ seen
    · rw [show dedupeAux seen (x :: rest) = dedupeAux seen rest by simp [dedupeAux, hx], ih]
      constructor
      · rintro ⟨h1, h2⟩; exact ⟨List.mem_cons_of_mem _ h1, h2⟩
      · rintro ⟨h1, h2⟩
        rcases List.mem_cons.mp h1 with h1 | h1
        · subst h1; exact absurd hx h2
        · exact ⟨h1, h2⟩
    · rw [show dedupeAux seen (x :: rest) = x :: dedupeAux (seen ++ [x]) rest by
        simp [dedupeAux, hx]]
      rw [List.mem_cons, ih]
      constructor
      · rintro (h | ⟨h1, h2⟩)
        · subst h; exact ⟨List.mem_cons_self _ _, hx⟩
        · refine ⟨List.mem_cons_of_mem _ h1, fun hy => h2 ?_⟩
          exact List.mem_append_left _ hy
      · rintro ⟨h1, h2⟩
        by_cases hyx : y = x
        · exact Or.inl hyx
        · rcases List.mem_cons.mp h1 with h | h
          · exact Or.inl h
          · refine Or.inr ⟨h, fun hy => ?_⟩
            rcases List.mem_append.mp hy with hy | hy
            · exact h2 hy
            · exact hyx (List.mem_singleton.mp hy)

theorem dedupeAux_nodup (l : List String) : ∀ seen, (dedupeAux seen l).Nodup := by
  induction l with
  | nil => intro seen; simp [dedupeAux]
  | cons x rest ih =>
    intro seen
    by_cases hx : x ∈ seen
    · rw [show dedupeAux seen (x :: rest) = dedupeAux seen rest by simp [dedupeAux, hx]]
      exact ih seen
    · rw [show dedupeAux seen (x :: rest) = x :: dedupeAux (seen ++ [x]) rest by
        simp [dedupeAux, hx]]
      rw [List.nodup_cons]
      refine ⟨fun hmem => ?_, ih _⟩
      rw [dedupeAux_mem] at hmem
      exact hmem.2 (List.mem_append_right _ (List.mem_singleton.mpr rfl))

theorem dedupeAux_length_le (l : List String) : ∀ seen, (dedupeAux seen l).length ≤ l.length := by
  induction l with
  | nil => intro seen; simp [dedupeAux]
  | cons x rest ih =>
    intro seen
    by_cases hx : x ∈ seen
    · rw [show dedupeAux seen (x :: rest) = dedupeAux seen rest by simp [dedupeAux, hx]]
      exact le_trans (ih seen) (Nat.le_succ _)
    · rw [show dedupeAux seen (x :: rest) = x :: dedupeAux (seen ++ [x]) rest by
        simp [dedupeAux, hx]]
      simpa using Nat.succ_le_succ (ih _)

theorem dedupe_nodup (l : List String) : (dedupe l).Nodup := dedupeAux_nodup l []

theorem dedupe_mem (l : List String) (y : String) : y ∈ dedupe l ↔ y ∈ l := by
  simp [dedupe, dedupeAux_mem]

theorem dedupe_length_le (l : List String) : (dedupe l).length ≤ l.length :=
  dedupeAux_length_le l []

theorem nodupSnoc {l : List String} {a : String} (h : l.Nodup) (ha : a ∉ l) :
    (l ++ [a]).Nodup := by
  simp [List.nodup_append, h, ha]

theorem stage4Cands_nodup : ∀ (cs : List Cand) (urls : List String),
    urls.Nodup → (stage4Cands urls cs).Nodup := by
  intro cs
  induction cs with
  | nil => intro urls h; simpa [stage4Cands] using h
  | cons c rest ih =>
    intro urls h
    obtain ⟨sc, ord, url⟩ := c
    simp only [stage4Cands]
    split
    · exact ih urls h
    · next hm =>
      have h' := nodupSnoc h hm
      split
      · exact h'
      · exact ih _ h'

theorem stage4Sources_nodup : ∀ (l : List SourceElem) (urls : List String),
    urls.Nodup → (stage4Sources urls l).Nodup := by
  intro l
  induction l with
  | nil => intro urls h; simpa [stage4Sources] using h
  | cons s rest ih =>
    intro urls h
    simp only [stage4Sources]
    split
    · exact ih _ (stage4Cands_nodup _ _ h)
    · exact ih _ h

theorem stage4Pictures_nodup : ∀ (l : List Picture) (urls : List String),
    urls.Nodup → (stage4Pictures urls l).Nodup := by
  intro l
  induction l with
  | nil => intro urls h; simpa [stage4Pictures] using h
  | cons p rest ih =>
    intro urls h
    have h' := stage4Sources_nodup p.sources urls h
    simp only [stage4Pictures]
    split
    · exact h'
    · exact ih _ h'

theorem stage5Imgs_nodup : ∀ (l : List ImgElem) (urls : List String),
    urls.Nodup → (stage5Imgs urls l).Nodup := by
  intro l
  induction l with
  | nil => intro urls h; simpa [stage5Imgs] using h
  | cons img rest ih =>
    intro urls h
    simp only [stage5Imgs]
    split
    · split
      · exact ih urls h
      · next hm =>
        have h' := nodupSnoc h hm
        split
        · exact h'
        · exact ih _ h'
    · exact ih urls h

theorem stage6Cands_nodup : ∀ (cs : List Cand) (urls : List String),
    urls.Nodup → (stage6Cands urls cs).Nodup := by
  intro cs
  induction cs with
  | nil => intro urls h; simpa [stage6Cands] using h
  | cons c rest ih =>
    intro urls h
    obtain ⟨sc, ord, url⟩ := c
    simp only [stage6Cands]
    split
    · split
      · exact ih urls h
      · next hm =>
        have h' := nodupSnoc h hm
        split
        · exact h'
        · exact ih _ h'
    · exact ih urls h

theorem stage6Sources_nodup : ∀ (l : List SourceElem) (urls : List String),
    urls.Nodup → (stage6Sources urls l).Nodup := by
  intro l
  induction l with
  | nil => intro urls h; simpa [stage6Sources] using h
  | cons s rest ih =>
    intro urls h
    simp only [stage6Sources]
    split
    · next hc =>
      have h' : (stage6Cands urls (parseSrcset (srcsetOrData s))).Nodup :=
        stage6Cands_nodup _ _ h
      split
      · exact h'
      · exact ih _ h'
    · next hc =>
      split
      · exact h
      · exact ih _ h

theorem stage7Take_nodup : ∀ (cs : List String) (urls : List String),
    urls.Nodup → (stage7Take urls cs).Nodup := by
  intro cs
  induction cs with
  | nil => intro urls h; simpa [stage7Take] using h
  | cons u rest ih =>
    intro urls h
    simp only [stage7Take]
    split
    · exact ih urls h
    · next hm =>
      have h' := nodupSnoc h hm
      split
      · exact h'
      · exact ih _ h'


theorem stage3Sources_inv : ∀ (l : List SourceElem) (urls seen : List String),
    urls.Nodup → (∀ u ∈ urls, baseUrl u ∈ seen) →
    (stage3Sources urls seen l).1.Nodup ∧
      ∀ u ∈ (stage3Sources urls seen l).1, baseUrl u ∈ (stage3Sources urls seen l).2 := by
  intro l
  induction l with
  | nil => intro urls seen h hinv; simpa [stage3Sources] using ⟨h, hinv⟩
  | cons s rest ih =>
    intro urls seen h hinv
    simp only [stage3Sources]
    split
    · exact ih urls seen h hinv
    · split
      · exact ih urls seen h hinv
      · rename_i sc ord url heq
        split
        · exact ih urls seen h hinv
        · split
          · split
            · exact ih urls seen h hinv
            · next hb =>
              have hnm : url ∉ urls := fun hu => hb (hinv _ hu)
              have h' : (urls ++ [url]).Nodup := nodupSnoc h hnm
              have hinv' : ∀ u ∈ urls ++ [url], baseUrl u ∈ baseUrl url :: seen := by
                intro u hu
                rcases List.mem_append.mp hu with hu | hu
                · exact List.mem_cons_of_mem _ (hinv u hu)
                · rw [List.mem_singleton.mp hu]
                  exact List.mem_cons_self _ _
              split
              · exact ⟨h', hinv'⟩
              · exact ih _ _ h' hinv'
          · exact ih urls seen h hinv

theorem stage3Pictures_inv : ∀ (l : List Picture) (urls seen : List String),
    urls.Nodup → (∀ u ∈ urls, baseUrl u ∈ seen) →
    (stage3Pictures urls seen l).1.Nodup := by
  intro l
  induction l with
  | nil => intro urls seen h hinv; simpa [stage3Pictures] using h
  | cons p rest ih =>
    intro urls seen h hinv
    have hst := stage3Sources_inv (jpgSources p) urls seen h hinv
    simp only [stage3Pictures]
    split
    · exact hst.1
    · exact ih _ _ hst.1 hst.2

theorem scrapeUrls_nodup (page : RenderedPage) : (scrapeUrls page).Nodup := by
  simp only [scrapeUrls, scrapeResult]
  split
  · simp
  · set u1 := (stage3Pictures [] [] page.pictures).1 with hu1
    set u2 := if u1.isEmpty then stage4Pictures u1 page.pictures else u1 with hu2
    set u3 := if u2.isEmpty then stage5Imgs u2 page.imgs else u2 with hu3
    set u4 := if u3.isEmpty then stage6Sources u3 page.allSources else u3 with hu4
    set u5 := if u4.isEmpty then stage7Take u4 (dedupe (stage7Candidates page.mzstaticUrls))
      else u4 with hu5
    have h1 : u1.Nodup := stage3Pictures_inv page.pictures [] [] List.nodup_nil (by simp)
    have h2 : u2.Nodup := by
      rw [hu2]; split
      · exact stage4Pictures_nodup _ _ h1
      · exact h1
    have h3 : u3.Nodup := by
      rw [hu3]; split
      · exact stage5Imgs_nodup _ _ h2
      · exact h2
    have h4 : u4.Nodup := by
      rw [hu4]; split
      · exact stage6Sources_nodup _ _ h3
      · exact h3
    have h5 : u5.Nodup := by
      rw [hu5]; split
      · exact stage7Take_nodup _ _ h4
      · exact h4
    split
    · simp
    · exact h5

theorem skipApi_true_of (l : String) (hl : l ≠ "")
    (hen : strStartsWith (lowerStr l) "en" = false) : skipApi (some l) = true := by
  simp [skipApi, hl, hen]

theorem downloadScreenshots_scrapeOnly (meta : List String) (l : String) (s : List String)
    (hl : l ≠ "") (hen : strStartsWith (lowerStr l) "en" = false) (hs : s ≠ []) :
    downloadScreenshots meta (some l) s = s := by
  have hskip := skipApi_true_of l hl hen
  have hne : s.isEmpty = false := by
    cases s with
    | nil => exact absurd rfl hs
    | cons a t => rfl
  simp [downloadScreenshots, hskip, hne]

theorem downloadScreenshots_apiFallback (meta : List String) (l : String)
    (hl : l ≠ "") (hen : strStartsWith (lowerStr l) "en" = false) :
    downloadScreenshots meta (some l) [] = apiUrls meta := by
  have hskip := skipApi_true_of l hl hen
  by_cases hapi : apiUrls meta = []
  · simp [downloadScreenshots, hskip, hapi, dedupe, dedupeAux]
  · have : (apiUrls meta).isEmpty = false := by
      cases he : apiUrls meta with
      | nil => exact absurd he hapi
      | cons a t => rfl
    simp [downloadScreenshots, hskip, this]

theorem downloadScreenshots_noSkip (meta : List String) (language : Option String)
    (s : List String) (hskip : skipApi language = false) :
    downloadScreenshots meta language s
      = dedupe (apiUrls meta ++ (if (apiUrls meta).isEmpty then s else [])) := by
  simp [downloadScreenshots, hskip]

theorem takeWhileApp (p : Char → Bool) : ∀ (ds : List Char) (a : Char) (rest : List Char),
    (∀ c ∈ ds, p c = true) → p a = false →
    (ds ++ a :: rest).takeWhile p = ds ∧ (ds ++ a :: rest).dropWhile p = a :: rest := by
  intro ds
  induction ds with
  | nil =>
    intro a rest _ hpa
    exact ⟨by simp [List.takeWhile, hpa], by simp [List.dropWhile, hpa]⟩
  | cons d ds' ih =>
    intro a rest hall hpa
    have hpd : p d = true := hall d (List.mem_cons_self _ _)
    have hr := ih a rest (fun c hc => hall c (List.mem_cons_of_mem _ hc)) hpa
    exact ⟨by simp [List.takeWhile, hpd, hr.1], by simp [List.dropWhile, hpd, hr.2]⟩

theorem parseDescriptor_intUnit (s : String) (ds rest : List Char) (u : Char)
    (hu : u = 'w' ∨ u = 'x') (hds : ds ≠ []) (hdig : ∀ c ∈ ds, c.isDigit = true)
    (hs : s.data = ds ++ u :: rest) :
    parseDescriptor s = some (mkRat (digitsToNat ds) 1, u) := by
  have hnd : Char.isDigit u = false := by rcases hu with h | h <;> subst h <;> decide
  have htd := takeWhileApp Char.isDigit ds u rest hdig hnd
  rcases hu with h | h <;> subst h <;>
    simp only [parseDescriptor, hs, htd.1, htd.2, hds] <;>
    simp [hds]

theorem descriptorScore_intW (s : String) (ds rest : List Char)
    (hds : ds ≠ []) (hdig : ∀ c ∈ ds, c.isDigit = true) (hs : s.data = ds ++ 'w' :: rest) :
    descriptorScore s = (digitsToNat ds : ℚ) := by
  rw [descriptorScore, parseDescriptor_intUnit s ds rest 'w' (Or.inl rfl) hds hdig hs]
  simp [mkRat_one_den]

theorem descriptorScore_intX (s : String) (ds rest : List Char)
    (hds : ds ≠ []) (hdig : ∀ c ∈ ds, c.isDigit = true) (hs : s.data = ds ++ 'x' :: rest) :
    descriptorScore s = (digitsToNat ds : ℚ) * 1000 := by
  rw [descriptorScore, parseDescriptor_intUnit s ds rest 'x' (Or.inr rfl) hds hdig hs]
  simp [ratTimes1000_eq, mkRat_one_den]

theorem parseDescriptor_decUnit (s : String) (ds fs rest : List Char) (u : Char)
    (hu : u = 'w' ∨ u = 'x') (hds : ds ≠ []) (hfs : fs ≠ [])
    (hdig : ∀ c ∈ ds, c.isDigit = true) (hfdig : ∀ c ∈ fs, c.isDigit = true)
    (hs : s.data = ds ++ '.' :: (fs ++ u :: rest)) :
    parseDescriptor s
      = some (mkRat (digitsToNat ds * 10 ^ fs.length + digitsToNat fs) (10 ^ fs.length), u) := by
  have hdot : Char.isDigit '.' = false := by decide
  have hnd : Char.isDigit u = false := by rcases hu with h | h <;> subst h <;> decide
  have ht1 := takeWhileApp Char.isDigit ds '.' (fs ++ u :: rest) hdig hdot
  have ht2 := takeWhileApp Char.isDigit fs u rest hfdig hnd
  rcases hu with h | h <;> subst h <;>
    simp only [parseDescriptor, hs, ht1.1, ht1.2, ht2.1, ht2.2] <;>
    simp [hds, hfs]

theorem descriptorScore_decW (s : String) (ds fs rest : List Char)
    (hds : ds ≠ []) (hfs : fs ≠ [])
    (hdig : ∀ c ∈ ds, c.isDigit = true) (hfdig : ∀ c ∈ fs, c.isDigit = true)
    (hs : s.data = ds ++ '.' :: (fs ++ 'w' :: rest)) :
    descriptorScore s = (digitsToNat ds : ℚ) + (digitsToNat fs : ℚ) / 10 ^ fs.length := by
  rw [descriptorScore, parseDescriptor_decUnit s ds fs rest 'w' (Or.inl rfl) hds hfs hdig hfdig hs]
  simp [mkRat_decimal]

theorem descriptorScore_decX (s : String) (ds fs rest : List Char)
    (hds : ds ≠ []) (hfs : fs ≠ [])
    (hdig : ∀ c ∈ ds, c.isDigit = true) (hfdig : ∀ c ∈ fs, c.isDigit = true)
    (hs : s.data = ds ++ '.' :: (fs ++ 'x' :: rest)) :
    descriptorScore s
      = ((digitsToNat ds : ℚ) + (digitsToNat fs : ℚ) / 10 ^ fs.length) * 1000 := by
  rw [descriptorScore, parseDescriptor_decUnit s ds fs rest 'x' (Or.inr rfl) hds hfs hdig hfdig hs]
  simp [ratTimes1000_eq, mkRat_decimal]

theorem descriptorScore_none (s : String) (h : parseDescriptor s = none) :
    descriptorScore s = 0 := by
  rw [descriptorScore, h]

theorem parseChunk_order (n : ℕ) (ch : List Char) (c : Cand) (h : parseChunk n ch = some c) :
    c.2.1 = n := by
  simp only [parseChunk] at h
  split at h
  · exact absurd h (by simp)
  · split at h
    · rw [← Option.some.inj h]
    · exact absurd h (by simp)

theorem parseSrcsetAux_lb : ∀ (l : List (List Char)) (n : ℕ) (c : Cand),
    c ∈ parseSrcsetAux n l → n ≤ c.2.1 := by
  intro l
  induction l with
  | nil => intro n c hc; simp [parseSrcsetAux] at hc
  | cons ch rest ih =>
    intro n c hc
    simp only [parseSrcsetAux] at hc
    cases hpc : parseChunk n ch with
    | none =>
      rw [hpc] at hc
      exact le_trans (Nat.le_succ n) (ih (n + 1) c hc)
    | some c0 =>
      rw [hpc] at hc
      rcases List.mem_cons.mp hc with h | h
      · subst h
        exact le_of_eq (parseChunk_order n ch c hpc).symm
      · exact le_trans (Nat.le_succ n) (ih (n + 1) c h)

theorem parseSrcsetAux_pairwise : ∀ (l : List (List Char)) (n : ℕ),
    (parseSrcsetAux n l).Pairwise (fun a b => a.2.1 < b.2.1) := by
  intro l
  induction l with
  | nil => intro n; simp [parseSrcsetAux]
  | cons ch rest ih =>
    intro n
    simp only [parseSrcsetAux]
    cases hpc : parseChunk n ch with
    | none => exact ih (n + 1)
    | some c0 =>
      refine List.Pairwise.cons ?_ (ih (n + 1))
      intro b hb
      have h1 : c0.2.1 = n := parseChunk_order n ch c0 hpc
      have h2 : n + 1 ≤ b.2.1 := parseSrcsetAux_lb rest (n + 1) b hb
      omega

theorem parseSrcset_pairwise (s : String) :
    (parseSrcset s).Pairwise (fun a b => a.2.1 < b.2.1) := by
  rw [parseSrcset]
  split
  · exact List.Pairwise.nil
  · exact parseSrcsetAux_pairwise _ 0

theorem topCand_spec : ∀ (l : List Cand), l ≠ [] →
    l.Pairwise (fun a b => a.2.1 < b.2.1) →
    ∃ r, topCand l = some r ∧ r ∈ l ∧ (∀ c ∈ l, c.1 ≤ r.1) ∧
      (∀ c ∈ l, c.1 = r.1 → r.2.1 ≤ c.2.1) := by
  intro l
  induction l with
  | nil => intro h; exact absurd rfl h
  | cons c rest ih =>
    intro _ hpw
    have hord : ∀ x ∈ rest, c.2.1 < x.2.1 := (List.pairwise_cons.mp hpw).1
    have hpw' := (List.pairwise_cons.mp hpw).2
    by_cases hrest : rest = []
    · subst hrest
      refine ⟨c, by simp [topCand, sortCandDesc, insCand], List.mem_cons_self _ _, ?_, ?_⟩
      · intro x hx
        rw [List.mem_singleton.mp hx]
      · intro x hx _
        rw [List.mem_singleton.mp hx]
    · obtain ⟨r', hr'top, hr'mem, hr'max, hr'tie⟩ := ih hrest hpw'
      have htop : topCand (c :: rest) = (insCand c (sortCandDesc rest)).head? := by
        simp [topCand, sortCandDesc]
      cases hsc : sortCandDesc rest with
      | nil => rw [topCand, hsc] at hr'top; exact absurd hr'top (by simp)
      | cons a tail =>
        have ha : a = r' := by
          rw [topCand, hsc] at hr'top
          simpa using hr'top
        subst ha
        rw [hsc] at htop
        by_cases hle : a.1 ≤ c.1
        · have htc : topCand (c :: rest) = some c := by
            rw [htop]; simp [insCand, hle]
          refine ⟨c, htc, List.mem_cons_self _ _, ?_, ?_⟩
          · intro x hx
            rcases List.mem_cons.mp hx with h | h
            · rw [h]
            · exact le_trans (hr'max x h) hle
          · intro x hx _
            rcases List.mem_cons.mp hx with h | h
            · rw [h]
            · exact le_of_lt (hord x h)
        · have hlt : c.1 < a.1 := lt_of_not_le hle
          have htc : topCand (c :: rest) = some a := by
            rw [htop]; simp [insCand, hle]
          refine ⟨a, htc, List.mem_cons_of_mem _ hr'mem, ?_, ?_⟩
          · intro x hx
            rcases List.mem_cons.mp hx with h | h
            · rw [h]; exact le_of_lt hlt
            · exact hr'max x h
          · intro x hx hxe
            rcases List.mem_cons.mp hx with h | h
            · exact absurd (h ▸ hxe) (ne_of_lt hlt)
            · exact hr'tie x h hxe

theorem lookup_val_nonempty : ∀ (m : List (String × String)), (∀ p ∈ m, p.2 ≠ "") →
    ∀ (c v : String), m.lookup c = some v → v ≠ "" := by
  intro m
  induction m with
  | nil => intro _ c v h; simp [List.lookup] at h
  | cons p rest ih =>
    intro hall c v h
    obtain ⟨k, w⟩ := p
    simp only [List.lookup] at h
    by_cases hk : (c == k) = true
    · rw [hk] at h
      rw [← Option.some.inj h]
      exact hall (k, w) (List.mem_cons_self _ _)
    · rw [Bool.not_eq_true] at hk
      rw [hk] at h
      exact ih (fun q hq => hall q (List.mem_cons_of_mem _ hq)) c v h

theorem countryDefaultLanguage_nonempty (setting : Option String) (c : String) :
    countryDefaultLanguage setting c ≠ "" := by
  rw [countryDefaultLanguage]
  cases hlk : COUNTRY_LANGUAGE_MAP.lookup (lowerStr c) with
  | some v =>
    exact lookup_val_nonempty COUNTRY_LANGUAGE_MAP (by decide) (lowerStr c) v hlk
  | none =>
    cases setting with
    | none => simp [defaultLanguageOf]
    | some v =>
      by_cases hv : v = "" <;> simp [defaultLanguageOf, hv]

theorem scrapeExc_of_error (r : RenderOutcome) (f : Faults) (e : Unit)
    (h : scrapeBodyExc r f = .error e) : scrapeExc r f = ([], []) := by
  simp [scrapeExc, h]

theorem scrapeExc_crash (f : Faults) : scrapeExc .crash f = ([], []) := by
  simp [scrapeExc, scrapeBodyExc]

theorem scrapeExc_noSuccess (page : RenderedPage) (f : Faults)
    (h : page.success = false) : scrapeExc (.page page) f = ([], []) := by
  simp [scrapeExc, scrapeBodyExc, h]

theorem scrapeExc_fault3 (page : RenderedPage) (f : Faults)
    (h3 : f.s3 = true) : scrapeExc (.page page) f = ([], []) := by
  by_cases hs : page.success = false
  · exact scrapeExc_noSuccess page f hs
  · simp [scrapeExc, scrapeBodyExc, hs, h3, stageStep]

theorem scrapeExc_fault4 (page : RenderedPage) (f : Faults)
    (h3 : f.s3 = false) (he : stage3 page = []) (h4 : f.s4 = true) :
    scrapeExc (.page page) f = ([], []) := by
  by_cases hs : page.success = false
  · exact scrapeExc_noSuccess page f hs
  · rw [stage3] at he
    simp [scrapeExc, scrapeBodyExc, hs, h3, h4, he, stageStep]

theorem scrapeExc_fault5 (page : RenderedPage) (f : Faults)
    (h3 : f.s3 = false) (h4 : f.s4 = false) (he3 : stage3 page = [])
    (he4 : stage4 page = []) (h5 : f.s5 = true) :
    scrapeExc (.page page) f = ([], []) := by
  by_cases hs : page.success = false
  · exact scrapeExc_noSuccess page f hs
  · rw [stage3] at he3
    rw [stage4] at he4
    simp [scrapeExc, scrapeBodyExc, hs, h3, h4, h5, he3, he4, stageStep]

theorem scrapeExc_fault6 (page : RenderedPage) (f : Faults)
    (h3 : f.s3 = false) (h4 : f.s4 = false) (h5 : f.s5 = false)
    (he3 : stage3 page = []) (he4 : stage4 page = []) (he5 : stage5 page = [])
    (h6 : f.s6 = true) :
    scrapeExc (.page page) f = ([], []) := by
  by_cases hs : page.success = false
  · exact scrapeExc_noSuccess page f hs
  · rw [stage3] at he3
    rw [stage4] at he4
    rw [stage5] at he5
    simp [scrapeExc, scrapeBodyExc, hs, h3, h4, h5, h6, he3, he4, he5, stageStep]

theorem scrapeExc_fault7 (page : RenderedPage) (f : Faults)
    (h3 : f.s3 = false) (h4 : f.s4 = false) (h5 : f.s5 = false) (h6 : f.s6 = false)
    (he3 : stage3 page = []) (he4 : stage4 page = []) (he5 : stage5 page = [])
    (he6 : stage6 page = []) (h7 : f.s7 = true) :
    scrapeExc (.page page) f = ([], []) := by
  by_cases hs : page.success = false
  · exact scrapeExc_noSuccess page f hs
  · rw [stage3] at he3
    rw [stage4] at he4
    rw [stage5] at he5
    rw [stage6] at he6
    simp [scrapeExc, scrapeBodyExc, hs, h3, h4, h5, h6, h7, he3, he4, he5, he6, stageStep]

/-! ### Claim theorems -/

/-- C1: for every country, a non-English language request makes
`download_screenshots` skip the metadata-API screenshot stage and scrape;
if the scrape returns a non-empty list the resolved set is exactly the
scraped list (API URLs excluded), if it returns an empty list the resolved
set is the API-derived list; with an English or absent language the
resolved set is the API list concatenated with any scraped URLs,
deduplicated in first-seen order (scraping only runs there when the API
list is empty, so "any scraped URLs" is the scrape outcome in exactly that
case). -/
theorem c1_merge_policy :
    (∀ (meta : List String) (l : String) (s : List String),
        l ≠ "" → strStartsWith (lowerStr l) "en" = false → s ≠ [] →
        downloadScreenshots meta (some l) s = s)
    ∧ (∀ (meta : List String) (l : String),
        l ≠ "" → strStartsWith (lowerStr l) "en" = false →
        downloadScreenshots meta (some l) [] = apiUrls meta)
    ∧ (∀ (meta : List String) (s : List String),
        downloadScreenshots meta none s
          = dedupe (apiUrls meta ++ if (apiUrls meta).isEmpty then s else []))
    ∧ (∀ (meta : List String) (l : String) (s : List String),
        strStartsWith (lowerStr l) "en" = true →
        downloadScreenshots meta (some l) s
          = dedupe (apiUrls meta ++ if (apiUrls meta).isEmpty then s else [])) := by
  refine ⟨downloadScreenshots_scrapeOnly, downloadScreenshots_apiFallback, ?_, ?_⟩
  · intro meta s
    simpa using downloadScreenshots_noSkip meta none s rfl
  · intro meta l s hen
    simpa using downloadScreenshots_noSkip meta (some l) s (by simp [skipApi, hen])

/-- C1 witness: a concrete non-English request with a successful scrape
resolves to the scraped list only. -/
theorem c1_merge_policy_witness :
    downloadScreenshots ["//x.com/a.webp"] (some "ja") ["https://s.com/1.jpg"]
      = ["https://s.com/1.jpg"] :=
  c1_merge_policy.1 ["//x.com/a.webp"] "ja" ["https://s.com/1.jpg"]
    (by decide) (by decide) (by decide)

/-- C2: a srcset entry whose descriptor is an integer or decimal number
followed by `w` scores that number; followed by `x` it scores the number
times 1000; an entry with no parseable descriptor scores 0 (the concrete
conjunct shows the whole parse: `750w` ↦ 750, `2x` ↦ 2000, junk ↦ 0, with
document order preserved). -/
theorem c2_descriptor_scoring :
    (∀ (s : String) (ds rest : List Char),
        ds ≠ [] → (∀ c ∈ ds, c.isDigit = true) → s.data = ds ++ 'w' :: rest →
        descriptorScore s = (digitsToNat ds : ℚ))
    ∧ (∀ (s : String) (ds rest : List Char),
        ds ≠ [] → (∀ c ∈ ds, c.isDigit = true) → s.data = ds ++ 'x' :: rest →
        descriptorScore s = (digitsToNat ds : ℚ) * 1000)
    ∧ (∀ (s : String) (ds fs rest : List Char),
        ds ≠ [] → fs ≠ [] → (∀ c ∈ ds, c.isDigit = true) → (∀ c ∈ fs, c.isDigit = true) →
        s.data = ds ++ '.' :: (fs ++ 'w' :: rest) →
        descriptorScore s = (digitsToNat ds : ℚ) + (digitsToNat fs : ℚ) / 10 ^ fs.length)
    ∧ (∀ (s : String) (ds fs rest : List Char),
        ds ≠ [] → fs ≠ [] → (∀ c ∈ ds, c.isDigit = true) → (∀ c ∈ fs, c.isDigit = true) →
        s.data = ds ++ '.' :: (fs ++ 'x' :: rest) →
        descriptorScore s
          = ((digitsToNat ds : ℚ) + (digitsToNat fs : ℚ) / 10 ^ fs.length) * 1000)
    ∧ (∀ s : String, parseDescriptor s = none → descriptorScore s = 0)
    ∧ parseSrcset "https://a.mzstatic.com/i1 750w,https://b.mzstatic.com/i2 2x,https://c.mzstatic.com/i3 zz"
        = [(750, 0, "https://a.mzstatic.com/i1"), (2000, 1, "https://b.mzstatic.com/i2"),
           (0, 2, "https://c.mzstatic.com/i3")] := by
  refine ⟨?_, ?_, ?_, ?_, descriptorScore_none, by decide⟩
  · intro s ds rest h1 h2 h3; exact descriptorScore_intW s ds rest h1 h2 h3
  · intro s ds rest h1 h2 h3; exact descriptorScore_intX s ds rest h1 h2 h3
  · intro s ds fs rest h1 h2 h3 h4 h5; exact descriptorScore_decW s ds fs rest h1 h2 h3 h4 h5
  · intro s ds fs rest h1 h2 h3 h4 h5; exact descriptorScore_decX s ds fs rest h1 h2 h3 h4 h5

/-- C2 witness: `750w` scores 750 and `2x` scores 2×1000. -/
theorem c2_descriptor_scoring_witness :
    descriptorScore "750w" = (digitsToNat ['7', '5', '0'] : ℚ)
    ∧ descriptorScore "2x" = (digitsToNat ['2'] : ℚ) * 1000 :=
  ⟨c2_descriptor_scoring.1 "750w" ['7', '5', '0'] [] (by decide) (by decide) (by decide),
   c2_descriptor_scoring.2.1 "2x" ['2'] [] (by decide) (by decide) (by decide)⟩

/-- C3: on every successfully rendered page, the scrape returns exactly the
output of the first extraction stage (strict, loose, img-tag, source-tag,
regex — in that order) that produces a non-empty URL list; each later stage
runs only when all earlier stages produced nothing. -/
theorem c3_cascade : ∀ (page : RenderedPage), page.success = true →
    scrapeUrls page
      = firstNonEmpty [stage3 page, stage4 page, stage5 page, stage6 page, stage7 page] := by
  intro page hs
  simp only [scrapeUrls, scrapeResult, stage3, stage4, stage5, stage6, stage7,
    firstNonEmpty, hs]
  cases h3 : (stage3Pictures [] [] page.pictures).1 with
  | cons a l => simp
  | nil =>
    simp only [List.isEmpty_nil, if_true]
    cases h4 : stage4Pictures [] page.pictures with
    | cons a l => simp
    | nil =>
      simp only [List.isEmpty_nil, if_true]
      cases h5 : stage5Imgs [] page.imgs with
      | cons a l => simp
      | nil =>
        simp only [List.isEmpty_nil, if_true]
        cases h6 : stage6Sources [] page.allSources with
        | cons a l => simp
        | nil =>
          simp only [List.isEmpty_nil, if_true]
          cases h7 : stage7Take [] (dedupe (stage7Candidates page.mzstaticUrls)) with
          | cons a l => simp
          | nil => simp

/-- C3 witness: the cascade equality at a concrete page whose img-tag stage
is the first to produce a URL. -/
theorem c3_cascade_witness :
    scrapeUrls pageImgHit
      = firstNonEmpty [stage3 pageImgHit, stage4 pageImgHit, stage5 pageImgHit,
          stage6 pageImgHit, stage7 pageImgHit] :=
  c3_cascade pageImgHit rfl

/-- C4 counterexample: the claim says a stage exception is treated as that
stage producing nothing with the cascade continuing; on a page where
stage 3 raises and the loose stage would find a URL, the code returns
nothing at all while the claimed per-stage-catch semantics would return the
loose stage's URL. -/
theorem c4_counterexample :
    scrapeExc (.page pageFault) faultsS3 ≠ specStageLocalCatch (.page pageFault) faultsS3 := by
  decide

/-- C4 amended: an exception raised at any extraction stage propagates to
the single function-level handler, aborting the remaining stages and making
the scrape return the empty list with no debug files; a render exception or
a failed navigation likewise yields empty; no exception escapes (every
`Except.error` of the body maps to `([], [])`). -/
theorem c4_amended :
    (∀ f : Faults, scrapeExc .crash f = ([], []))
    ∧ (∀ (page : RenderedPage) (f : Faults), page.success = false →
        scrapeExc (.page page) f = ([], []))
    ∧ (∀ (r : RenderOutcome) (f : Faults) (e : Unit), scrapeBodyExc r f = .error e →
        scrapeExc r f = ([], []))
    ∧ (∀ (page : RenderedPage) (f : Faults), f.s3 = true →
        scrapeExc (.page page) f = ([], []))
    ∧ (∀ (page : RenderedPage) (f : Faults), f.s3 = false → stage3 page = [] →
        f.s4 = true → scrapeExc (.page page) f = ([], []))
    ∧ (∀ (page : RenderedPage) (f : Faults), f.s3 = false → f.s4 = false →
        stage3 page = [] → stage4 page = [] → f.s5 = true →
        scrapeExc (.page page) f = ([], []))
    ∧ (∀ (page : RenderedPage) (f : Faults), f.s3 = false → f.s4 = false → f.s5 = false →
        stage3 page = [] → stage4 page = [] → stage5 page = [] → f.s6 = true →
        scrapeExc (.page page) f = ([], []))
    ∧ (∀ (page : RenderedPage) (f : Faults), f.s3 = false → f.s4 = false → f.s5 = false →
        f.s6 = false → stage3 page = [] → stage4 page = [] → stage5 page = [] →
        stage6 page = [] → f.s7 = true → scrapeExc (.page page) f = ([], [])) :=
  ⟨scrapeExc_crash, scrapeExc_noSuccess, scrapeExc_of_error, scrapeExc_fault3,
   scrapeExc_fault4, scrapeExc_fault5, scrapeExc_fault6, scrapeExc_fault7⟩

/-- C4 amended witness: a stage-3 exception on a concrete page makes the
scrape return nothing. -/
theorem c4_amended_witness : scrapeExc (.page pageFault) faultsS3 = ([], []) :=
  c4_amended.2.2.2.1 pageFault faultsS3 rfl

/-- C5 counterexample: with duplicate metadata URLs, a non-English language
and an empty scrape, the resolved set is the raw normalized API list and
contains the same URL twice. -/
theorem c5_counterexample :
    downloadScreenshots ["//x.com/a.webp", "//x.com/a.webp"] (some "ja") []
        = ["https://x.com/a.jpg", "https://x.com/a.jpg"]
    ∧ ¬ (downloadScreenshots ["//x.com/a.webp", "//x.com/a.webp"] (some "ja") []).Nodup := by
  decide

/-- C5 amended: whenever the normalized API list is itself duplicate-free,
the resolved set is duplicate-free for every language and every scrape
outcome the scraper can produce (scrape-produced lists are always
duplicate-free; only the API-fallback branch can preserve duplicates that
already occur in the metadata). -/
theorem c5_amended : ∀ (meta : List String) (language : Option String) (page : RenderedPage),
    (apiUrls meta).Nodup →
    (downloadScreenshots meta language (scrapeUrls page)).Nodup := by
  intro meta language page hapi
  have hscr : (scrapeUrls page).Nodup := scrapeUrls_nodup page
  simp only [downloadScreenshots]
  by_cases hns : (skipApi language || (apiUrls meta).isEmpty) = true
  · rw [if_pos hns]
    split
    · exact hscr
    · split
      · exact hapi
      · exact dedupe_nodup _
  · rw [if_neg hns]
    split
    · exact List.nodup_nil
    · split
      · exact hapi
      · exact dedupe_nodup _

/-- C5 amended witness: a concrete duplicate-free API list stays
duplicate-free after merging with a concrete scrape. -/
theorem c5_amended_witness :
    (downloadScreenshots ["//x.com/a.webp"] (some "ja") (scrapeUrls pageImgHit)).Nodup :=
  c5_amended ["//x.com/a.webp"] (some "ja") pageImgHit (by decide)

/-- C6: the claim says every branch caps the resolved set at 10 URLs, but
the loose structured-markup stage checks the cap only after a whole picture
(`for source` has no guard), so a picture whose first source fills the list
to 10 and whose second source adds one more makes the scrape — and with a
non-English language the resolved set — contain 11 URLs. -/
theorem c6_cap_violation :
    (scrapeUrls pageOverflow).length = 11
    ∧ downloadScreenshots [] (some "ja") (scrapeUrls pageOverflow) = scrapeUrls pageOverflow
    ∧ (downloadScreenshots [] (some "ja") (scrapeUrls pageOverflow)).length = 11 := by
  decide

/-- C7: the metadata-API stage prefixes `https:` onto protocol-relative
URLs, replaces `.webp` by `.jpg` and considers only the first 10 URLs (the
API list depends only on the first 10 entries and never exceeds 10); for
metadata `["//x.com/a.webp"]` with no language override the resolved set is
exactly `["https://x.com/a.jpg"]` whatever the scraper would have
returned. -/
theorem c7_api_normalization :
    (∀ s : List String, downloadScreenshots ["//x.com/a.webp"] none s = ["https://x.com/a.jpg"])
    ∧ (∀ meta : List String, apiUrls meta = apiUrls (meta.take 10))
    ∧ (∀ meta : List String, (apiUrls meta).length ≤ 10) := by
  refine ⟨?_, ?_, ?_⟩
  · intro s
    rfl
  · intro meta
    simp [apiUrls, List.take_take]
  · intro meta
    calc (apiUrls meta).length ≤ (meta.take 10).length := List.length_filterMap_le _ _
      _ ≤ 10 := by simp [List.length_take]

/-- C8: for every non-empty candidate list parsed from a srcset, the
selection used by the strict structured-markup stage (descending stable
sort by score, then the first element) returns a candidate of the list with
the largest score, and among equal scores the one with the smallest
document order. -/
theorem c8_top_candidate : ∀ (srcset : String), parseSrcset srcset ≠ [] →
    ∃ r, topCand (parseSrcset srcset) = some r ∧ r ∈ parseSrcset srcset
      ∧ (∀ c ∈ parseSrcset srcset, c.1 ≤ r.1)
      ∧ (∀ c ∈ parseSrcset srcset, c.1 = r.1 → r.2.1 ≤ c.2.1) := by
  intro s hne
  exact topCand_spec (parseSrcset s) hne (parseSrcset_pairwise s)

/-- C8 witness: between candidates scored 750 and 1242 the 1242 one is
selected. -/
theorem c8_top_candidate_witness :
    parseSrcset "https://a 750w,https://b 1242w" ≠ []
    ∧ ∃ r, topCand (parseSrcset "https://a 750w,https://b 1242w") = some r
        ∧ r ∈ parseSrcset "https://a 750w,https://b 1242w"
        ∧ (∀ c ∈ parseSrcset "https://a 750w,https://b 1242w", c.1 ≤ r.1)
        ∧ (∀ c ∈ parseSrcset "https://a 750w,https://b 1242w", c.1 = r.1 → r.2.1 ≤ c.2.1) :=
  ⟨by decide, c8_top_candidate "https://a 750w,https://b 1242w" (by decide)⟩

/-- C9: when the render succeeds and every extraction stage yields nothing,
the scrape returns the empty list and writes exactly two debug files —
`debug_html_full.txt` holding the raw HTML and `debug_urls.txt` holding the
sorted set of all CDN URLs found in the HTML, one per line; when the result
is non-empty, no debug file is written. -/
theorem c9_debug_files : ∀ (page : RenderedPage), page.success = true →
    ((stage3 page = [] → stage4 page = [] → stage5 page = [] → stage6 page = [] →
        stage7 page = [] →
        scrapeResult page
          = ([], [("debug_html_full.txt", page.html),
                  ("debug_urls.txt", joinLines (sortStrings (dedupe page.allCdnUrls)))]))
      ∧ ((scrapeResult page).1 ≠ [] → (scrapeResult page).2 = [])) := by
  intro page hs
  constructor
  · intro h3 h4 h5 h6 h7
    rw [stage3] at h3
    rw [stage4] at h4
    rw [stage5] at h5
    rw [stage6] at h6
    rw [stage7] at h7
    simp [scrapeResult, hs, h3, h4, h5, h6, h7, debugFiles]
  · intro hne
    have hd : (scrapeResult page).1 = [] ∨ (scrapeResult page).2 = [] := by
      simp only [scrapeResult]
      repeat' split
      all_goals first
        | exact Or.inl rfl
        | exact Or.inr rfl
    rcases hd with h | h
    · exact absurd h hne
    · exact h

/-- C9 witness: a concrete page on which every stage fails produces the
empty list and the two debug files. -/
theorem c9_debug_files_witness :
    scrapeResult pageEmptyish
      = ([], [("debug_html_full.txt", pageEmptyish.html),
              ("debug_urls.txt", joinLines (sortStrings (dedupe pageEmptyish.allCdnUrls)))]) :=
  (c9_debug_files pageEmptyish rfl).1 (by decide) (by decide) (by decide) (by decide) (by decide)

/-- C10: with no language override, `_resolve_language` always yields a
language (map entry, or the configured default with its `or "en"`
fallbacks); whenever that resolved default does not start with `en`, the
country's screenshot resolution behaves as a non-English request — the API
stage is skipped and a successful scrape's list is used verbatim — as the
concrete conjuncts show for jp, de, fr and tr. -/
theorem c10_default_language :
    (∀ (setting : Option String) (c : String), resolveLanguage setting c none ≠ none)
    ∧ (∀ (setting : Option String) (c l : String) (meta s : List String),
        resolveLanguage setting c none = some l →
        strStartsWith (lowerStr l) "en" = false → s ≠ [] →
        skipApi (some l) = true ∧ countryScreenshotList setting c none meta s = s)
    ∧ resolveLanguage none "jp" none = some "ja"
    ∧ resolveLanguage none "de" none = some "de"
    ∧ resolveLanguage none "fr" none = some "fr"
    ∧ resolveLanguage none "tr" none = some "tr" := by
  refine ⟨?_, ?_, by decide, by decide, by decide, by decide⟩
  · intro setting c
    simp [resolveLanguage]
  · intro setting c l meta s hres hen hs
    have hl : countryDefaultLanguage setting c = l := by
      simpa [resolveLanguage] using hres
    have hlne : l ≠ "" := hl ▸ countryDefaultLanguage_nonempty setting c
    refine ⟨skipApi_true_of l hlne hen, ?_⟩
    rw [countryScreenshotList, hres]
    exact downloadScreenshots_scrapeOnly meta l s hlne hen hs

/-- C10 witness: for country jp the default language `ja` is resolved, the
API stage is skipped and the scraped list is used. -/
theorem c10_default_language_witness :
    skipApi (some "ja") = true
    ∧ countryScreenshotList none "jp" none ["u"] ["https://s/1.jpg"] = ["https://s/1.jpg"] :=
  c10_default_language.2.1 none "jp" "ja" ["u"] ["https://s/1.jpg"]
    (by decide) (by decide) (by decide)
